import Mathlib

/-!
Shallow embedding of the data-aggregation layer of the summerduck-dashboard
repository (React components `StatisticsComponent` (src/unnamed/part_002),
`DashboardComponent` and `DriversComponent`).

Conventions of the embedding:
  * CSV numbers are modelled as exact rationals.  JavaScript float division
    by zero produces NaN or plus/minus Infinity; every such non-finite result
    is modelled as the value `none` of `Option Rat` (see `jsDiv`).
  * A JavaScript truthiness test on a number (`x && x > 0`) is the test
    `0 < x`, since `0` is the only falsy numeric value that can appear here.
  * JavaScript object/Map keyed accumulation preserves insertion order of
    keys; `keysInOrder` models that, and each group is the sublist of
    records with that key, in input order.
  * `Array.prototype.sort` with a numeric comparator is a stable sort; it is
    modelled by the structurally recursive stable sort `sSort`, which is
    extensionally the unique stable sort for the comparator.
  * `new Date(s).getTime()` is treated as an external date parser; the
    definitions that sort chronologically take it as a parameter
    `dt : String -> Int`.
-/

/-- JavaScript float division, collapsing the non-finite results (NaN from
0/0, plus/minus Infinity from x/0) to `none`. -/
def jsDiv (a b : ℚ) : Option ℚ := if b = 0 then none else some (a / b)

/-- JavaScript `Math.round`: round half toward positive infinity. -/
def jsRound (q : ℚ) : ℤ := ⌊q + 1/2⌋

/-- Model of `parseFloat(x.toFixed(3))`: round to 3 decimal places. -/
def roundTo3 (q : ℚ) : ℚ := (jsRound (q * 1000) : ℚ) / 1000

/-- Model of `parseFloat(x.toFixed(2))`: round to 2 decimal places. -/
def roundTo2 (q : ℚ) : ℚ := (jsRound (q * 100) : ℚ) / 100

/-- Stable insertion of `a` into `l`: `a` is placed before the first element
`b` with `le a b`, hence after every strictly smaller element and before
every element tied with it (ties keep input order). -/
def sInsert (le : α → α → Bool) (a : α) : List α → List α
  | [] => [a]
  | b :: t => if le a b then a :: b :: t else b :: sInsert le a t

/-- Stable sort: the model of JavaScript `Array.prototype.sort` with a
consistent numeric comparator. -/
def sSort (le : α → α → Bool) : List α → List α
  | [] => []
  | x :: xs => sInsert le x (sSort le xs)

/-- Distinct keys of `l` under `key`, in order of first occurrence: the
iteration order of a JavaScript object or Map built by keyed accumulation. -/
def keysInOrder (key : α → κ) [DecidableEq κ] (l : List α) : List κ :=
  l.foldl (fun acc a => if key a ∈ acc then acc else acc ++ [key a]) []

/-- The records of `l` having key `k`, in input order: one group of a keyed
accumulation. -/
def groupOf (key : α → κ) [DecidableEq κ] (l : List α) (k : κ) : List α :=
  l.filter (fun a => decide (key a = k))

/-- Model of `xs.length > 0 ? Math.min(...xs) : 0`. -/
def minOfList : List ℚ → ℚ
  | [] => 0
  | h :: t => t.foldl min h

/-- Model of `xs.length > 0 ? Math.max(...xs) : 0`. -/
def maxOfList : List ℚ → ℚ
  | [] => 0
  | h :: t => t.foldl max h

/-- Model of `calcAverage` in DriversComponent:
`values.length > 0 ? sum / values.length : 0`. -/
def calcAverage (l : List ℚ) : ℚ := if 0 < l.length then l.sum / (l.length : ℚ) else 0

/-- One parsed CSV row (interface `RaceRecord`).  Field name mapping:
`sixtyFt` is the CSV column 60ft, `threeThirtyFt` is 330ft, `eighthET` is
1/8ET and `eighthMPH` is 1/8MPH. -/
structure RaceRecord where
  Driver : String
  CarNo : String
  Date : String
  RaceNumber : ℤ
  Reaction : ℚ
  sixtyFt : ℚ
  threeThirtyFt : ℚ
  eighthET : ℚ
  eighthMPH : ℚ
  Opponent : String
  OpponentCarNo : String
  WinLoss : String
deriving DecidableEq, Repr

/-- The valid (strictly positive) values of metric `f` among `l`, in input
order: the result of the ubiquitous `filter(r => r[f] && r[f] > 0).map(r => r[f])`. -/
def validValues (f : RaceRecord → ℚ) (l : List RaceRecord) : List ℚ :=
  (l.filter (fun r => decide (0 < f r))).map f

/-- First character of a word, as a string (model of `w[0]`). -/
def initialOf (w : String) : String := String.mk (w.data.take 1)

/-- Model of `driver.split(' ')`: split the character list on the space
character (extensionally the same as splitting the string on a one-space
separator, and executable by the kernel). -/
def wordsOf (s : String) : List String := ((s.data).splitOn (' ')).map String.mk

/-- Model of the display-name abbreviation with trailing space:
first word, space, initial of second word, then a period and a space
(the variant used by part_002 and the dashboard win-rate chart).  A single
word, or an empty (falsy) second word, yields the first word unchanged. -/
def displayNameTrail (s : String) : String :=
  match wordsOf s with
  | [] => s
  | [f] => f
  | f :: l :: _ => if l = ("") then f else f ++ (" ") ++ initialOf l ++ (". ")

/-- Model of the display-name abbreviation without trailing space (the
variant used by the dashboard reaction-time and speed charts). -/
def displayNamePlain (s : String) : String :=
  match wordsOf s with
  | [] => s
  | [f] => f
  | f :: l :: _ => if l = ("") then f else f ++ (" ") ++ initialOf l ++ (".")

/-- CarNo of the first record of a group (the reduce callbacks store the car
number seen on the first record of each key). -/
def headCarNo : List RaceRecord → String
  | [] => ""
  | h :: _ => h.CarNo

/-! ## DriversComponent: per-driver rollup and radar normalization -/

/-- Interface `DriverStats` of DriversComponent, field for field. -/
structure DriverStats where
  name : String
  carNumber : String
  races : ℕ
  wins : ℕ
  losses : ℕ
  winRate : ℚ
  avgReaction : ℚ
  avg60ft : ℚ
  avg330ft : ℚ
  avgEighthET : ℚ
  avgEighthMPH : ℚ
  bestEighthET : ℚ
  bestThreeThirty : ℚ
  bestSixtyFoot : ℚ
  bestReaction : ℚ
  bestEighthMPH : ℚ
  raceHistory : List RaceRecord
deriving DecidableEq, Repr

/-- The rollup object built for a nonempty list `dr` of the selected
races of the selected driver (the object literal passed to setDriverStats
in DriversComponent). -/
def mkDriverStats (sel : String) (dr : List RaceRecord) : DriverStats :=
  { name := sel
    carNumber := headCarNo dr
    races := dr.length
    wins := (dr.filter (fun r => decide (r.WinLoss = ("Win")))).length
    losses := (dr.filter (fun r => decide (r.WinLoss = ("Loss")))).length
    winRate := (((dr.filter (fun r => decide (r.WinLoss = ("Win")))).length : ℚ) / (dr.length : ℚ)) * 100
    avgReaction := calcAverage (validValues (·.Reaction) dr)
    avg60ft := calcAverage (validValues (·.sixtyFt) dr)
    avg330ft := calcAverage (validValues (·.threeThirtyFt) dr)
    avgEighthET := calcAverage (validValues (·.eighthET) dr)
    avgEighthMPH := calcAverage (validValues (·.eighthMPH) dr)
    bestEighthET := minOfList (validValues (·.eighthET) dr)
    bestThreeThirty := minOfList (validValues (·.threeThirtyFt) dr)
    bestSixtyFoot := minOfList (validValues (·.sixtyFt) dr)
    bestReaction := minOfList (validValues (·.Reaction) dr)
    bestEighthMPH := maxOfList (validValues (·.eighthMPH) dr)
    raceHistory := dr }

/-- The ten average/best aggregate fields of a driver rollup, as one tuple
(excluding the identity, count and history fields). -/
def aggFields : Option DriverStats → Option (ℚ × ℚ × ℚ × ℚ × ℚ × ℚ × ℚ × ℚ × ℚ × ℚ) :=
  Option.map (fun s => (s.avgReaction, s.avg60ft, s.avg330ft, s.avgEighthET, s.avgEighthMPH,
    s.bestEighthET, s.bestThreeThirty, s.bestSixtyFoot, s.bestReaction, s.bestEighthMPH))

/-- The driver-stats effect of DriversComponent as a function of the
selected driver and the loaded data.  The early return on an empty selection
or empty dataset leaves the state at its initial `null`, modelled as `none`;
a selected driver with no matching records sets the state to `null`
explicitly. -/
def driverStatsFor (sel : String) (data : List RaceRecord) : Option DriverStats :=
  if sel = ("") ∨ data = [] then none
  else
    match data.filter (fun r => decide (r.Driver = sel)) with
    | [] => none
    | h :: t => some (mkDriverStats sel (h :: t))

/-- Mean values of metric `f` per driver, skipping drivers with no valid
sample (the per-metric averages computed inside `findMinMax` of the radar
chart; a driver whose value list is empty is skipped by the early return). -/
def driverMeans (f : RaceRecord → ℚ) (l : List RaceRecord) : List ℚ :=
  ((keysInOrder (·.Driver) l).map (fun d => validValues f (groupOf (·.Driver) l d))).filterMap
    (fun vs => if vs.length = 0 then none else some (vs.sum / (vs.length : ℚ)))

/-- Model of `findMinMax`: the fold with sentinels Infinity and -Infinity
equals min/max of the list when it is nonempty; an empty list keeps the
sentinels, modelled as `none`. -/
def findMinMax (means : List ℚ) : Option (ℚ × ℚ) :=
  match means with
  | [] => none
  | h :: t => some (t.foldl min h, t.foldl max h)

/-- Source: `normalizeInverted = (value, min, max) => 100 - ((value - min) / (max - min) * 100)`.
When `max - min = 0` the division is by zero and the result is non-finite. -/
def normalizeInverted (value mn mx : ℚ) : Option ℚ :=
  (jsDiv (value - mn) (mx - mn)).map (fun t => 100 - t * 100)

/-- Source: `normalizeDirectly = (value, min, max) => (value - min) / (max - min) * 100`. -/
def normalizeDirectly (value mn mx : ℚ) : Option ℚ :=
  (jsDiv (value - mn) (mx - mn)).map (fun t => t * 100)

/-- The Reaction entry of the radar chart data for the selected driver:
`normalizeInverted(driverStats.avgReaction, reactionRange.min, reactionRange.max)`.
`none` when the rollup is absent, the range is degenerate-by-emptiness, or
the normalization divides by zero. -/
def radarReactionValue (sel : String) (l : List RaceRecord) : Option ℚ :=
  match driverStatsFor sel l, findMinMax (driverMeans (·.Reaction) l) with
  | some s, some (mn, mx) => normalizeInverted s.avgReaction mn mx
  | _, _ => none

/-! ## DashboardComponent: overview stats and top-6 charts -/

/-- One slice of the dashboard win-percentage pie: abbreviated driver name
and rounded win-rate percentage. -/
structure NameValue where
  name : String
  value : ℤ
deriving DecidableEq, Repr

/-- The per-driver win-rate entries of the dashboard pie, in
first-occurrence driver order, before sorting. -/
def winRateDataEntries (l : List RaceRecord) : List NameValue :=
  (keysInOrder (·.Driver) l).map (fun d =>
    { name := displayNameTrail d
      value :=
        if 0 < (groupOf (·.Driver) l d).length then
          jsRound ((((groupOf (·.Driver) l d).filter (fun r => decide (r.WinLoss = ("Win")))).length : ℚ)
            / ((groupOf (·.Driver) l d).length : ℚ) * 100)
        else 0 })

/-- Dashboard `winRateData`: every driver (no minimum race count), win rate
rounded with `Math.round`, sorted descending, top 6. -/
def winRateData (l : List RaceRecord) : List NameValue :=
  (sSort (fun a b => decide (b.value ≤ a.value)) (winRateDataEntries l)).take 6

/-- One bar of the dashboard reaction-time / speed charts. -/
structure DriverValue where
  driver : String
  value : ℚ
deriving DecidableEq, Repr

/-- The per-driver average-reaction entries of the dashboard chart, before
sorting. -/
def avgReactionEntries (l : List RaceRecord) : List DriverValue :=
  (keysInOrder (·.Driver) (l.filter (fun r => decide (0 < r.Reaction)))).map (fun d =>
    { driver := displayNamePlain d
      value := roundTo3 ((validValues (·.Reaction) (groupOf (·.Driver) l d)).sum
        / ((validValues (·.Reaction) (groupOf (·.Driver) l d)).length : ℚ)) })

/-- Dashboard `avgReactions`: drivers having at least one valid reaction,
average of valid reactions rounded to 3 decimals, sorted ascending, top 6. -/
def avgReactions (l : List RaceRecord) : List DriverValue :=
  (sSort (fun a b => decide (a.value ≤ b.value)) (avgReactionEntries l)).take 6

/-- The per-driver average-speed entries of the dashboard chart, before
sorting. -/
def avgSpeedEntries (l : List RaceRecord) : List DriverValue :=
  (keysInOrder (·.Driver) (l.filter (fun r => decide (0 < r.eighthMPH)))).map (fun d =>
    { driver := displayNamePlain d
      value := roundTo2 ((validValues (·.eighthMPH) (groupOf (·.Driver) l d)).sum
        / ((validValues (·.eighthMPH) (groupOf (·.Driver) l d)).length : ℚ)) })

/-- Dashboard `avgSpeeds`: drivers having at least one valid MPH, average of
valid speeds rounded to 2 decimals, sorted descending, top 6. -/
def avgSpeeds (l : List RaceRecord) : List DriverValue :=
  (sSort (fun a b => decide (b.value ≤ a.value)) (avgSpeedEntries l)).take 6

/-- The Average MPH figure of the dashboard stats overview: the reduce
summing the MPH field (with a fallback of 0 for a falsy value) over all
records, divided by the total record count.  The fallback is the value
itself: zero stays zero and any nonzero value, including a negative one, is
truthy — so the numerator is the plain sum and the denominator counts every
record. -/
def dashAvgMPH (l : List RaceRecord) : Option ℚ :=
  jsDiv (l.map (·.eighthMPH)).sum (l.length : ℚ)

/-- The Average ET figure of the dashboard stats overview, same shape as
`dashAvgMPH`. -/
def dashAvgET (l : List RaceRecord) : Option ℚ :=
  jsDiv (l.map (·.eighthET)).sum (l.length : ℚ)

/-! ## StatisticsComponent (part_002): leaderboards and advanced stats -/

/-- Interface `LeaderboardEntry` for the record-level leaderboards, with the
optional `date` and `opponent` context always filled there. -/
structure RecordEntry where
  driver : String
  carNo : String
  value : ℚ
  date : String
  opponent : String
deriving DecidableEq, Repr

/-- Entry of the driver-aggregate most-wins leaderboard. -/
structure DriverEntry where
  driver : String
  carNo : String
  value : ℚ
deriving DecidableEq, Repr

/-- Entry of the win-rate leaderboard, which also carries the race count. -/
structure WinRateEntry where
  driver : String
  carNo : String
  value : ℚ
  races : ℕ
deriving DecidableEq, Repr

/-- A record mapped to a leaderboard entry with metric value `f`. -/
def mkEntry (f : RaceRecord → ℚ) (r : RaceRecord) : RecordEntry :=
  ⟨r.Driver, r.CarNo, f r, r.Date, r.Opponent⟩

/-- Records eligible for the best-ET leaderboard. -/
def etPool (l : List RaceRecord) : List RaceRecord :=
  l.filter (fun r => decide (0 < r.eighthET))

/-- The eligible records sorted ascending by 1/8ET (stable). -/
def etSorted (l : List RaceRecord) : List RaceRecord :=
  sSort (fun a b => decide (a.eighthET ≤ b.eighthET)) (etPool l)

/-- Source `etLeaders`: filter to valid ET, sort ascending, top 10. -/
def etLeaders (l : List RaceRecord) : List RecordEntry :=
  ((etSorted l).take 10).map (mkEntry (·.eighthET))

/-- Records eligible for the top-speed leaderboard. -/
def speedPool (l : List RaceRecord) : List RaceRecord :=
  l.filter (fun r => decide (0 < r.eighthMPH))

/-- The eligible records sorted descending by 1/8MPH (stable). -/
def speedSorted (l : List RaceRecord) : List RaceRecord :=
  sSort (fun a b => decide (b.eighthMPH ≤ a.eighthMPH)) (speedPool l)

/-- Source `speedLeaders`: filter to valid MPH, sort descending, top 10. -/
def speedLeaders (l : List RaceRecord) : List RecordEntry :=
  ((speedSorted l).take 10).map (mkEntry (·.eighthMPH))

/-- Records eligible for the best-reaction leaderboard.  The source filter
is `race.Reaction && race.Reaction > 0.001`, which keeps exactly the
reactions strictly greater than 0.001 seconds. -/
def reactionPool (l : List RaceRecord) : List RaceRecord :=
  l.filter (fun r => decide ((1 : ℚ)/1000 < r.Reaction))

/-- Source `reactionLeaders`: reactions above 0.001, ascending, top 10. -/
def reactionLeaders (l : List RaceRecord) : List RecordEntry :=
  ((sSort (fun a b => decide (a.Reaction ≤ b.Reaction)) (reactionPool l)).take 10).map
    (mkEntry (·.Reaction))

/-- Source `sixtyFootLeaders`: valid 60ft times, ascending, top 10. -/
def sixtyFootLeaders (l : List RaceRecord) : List RecordEntry :=
  ((sSort (fun a b => decide (a.sixtyFt ≤ b.sixtyFt))
    (l.filter (fun r => decide (0 < r.sixtyFt)))).take 10).map (mkEntry (·.sixtyFt))

/-- The Win records of the input, in order (the records that create and
bump entries of `winsByDriver`). -/
def winRecords (l : List RaceRecord) : List RaceRecord :=
  l.filter (fun r => decide (r.WinLoss = ("Win")))

/-- The per-driver win-count entries, in first-occurrence order of winning
drivers, before sorting. -/
def winsEntries (l : List RaceRecord) : List DriverEntry :=
  (keysInOrder (·.Driver) (winRecords l)).map (fun d =>
    ⟨d, headCarNo (groupOf (·.Driver) (winRecords l) d),
      ((groupOf (·.Driver) (winRecords l) d).length : ℚ)⟩)

/-- Source `winsLeaderboard`: per-driver win counts (car number from the
first win record), sorted descending, top 10. -/
def winsLeaderboard (l : List RaceRecord) : List DriverEntry :=
  (sSort (fun a b => decide (b.value ≤ a.value)) (winsEntries l)).take 10

/-- Per-driver totals of the statistics view (`driverStats` reduce): driver,
car number of the first record, wins and race count. -/
structure DriverTotal where
  driver : String
  carNo : String
  wins : ℕ
  races : ℕ
deriving DecidableEq, Repr

/-- The per-driver totals, one entry per distinct driver in first-occurrence
order. -/
def driverTotals (l : List RaceRecord) : List DriverTotal :=
  (keysInOrder (·.Driver) l).map (fun d =>
    { driver := d
      carNo := headCarNo (groupOf (·.Driver) l d)
      wins := ((groupOf (·.Driver) l d).filter (fun r => decide (r.WinLoss = ("Win")))).length
      races := (groupOf (·.Driver) l d).length })

/-- The drivers passing the minimum race threshold of the win-rate
leaderboard (`filter(stats => stats.races >= 3)`). -/
def winRateEligible (l : List RaceRecord) : List DriverTotal :=
  (driverTotals l).filter (fun t => decide (3 ≤ t.races))

/-- The eligible drivers mapped to win-rate entries, before sorting. -/
def winRateEntries (l : List RaceRecord) : List WinRateEntry :=
  (winRateEligible l).map (fun t =>
    ⟨t.driver, t.carNo, ((t.wins : ℚ) / (t.races : ℚ)) * 100, t.races⟩)

/-- Source `winRateLeaderboard`: eligible drivers mapped to win-rate
percentages, sorted descending, top 10. -/
def winRateLeaderboard (l : List RaceRecord) : List WinRateEntry :=
  (sSort (fun a b => decide (b.value ≤ a.value)) (winRateEntries l)).take 10

/-- Entry of the consistency ranking.  The source stores
`value = Math.sqrt(variance)`; the embedding stores the exact variance and
expresses the square root in the theorems. -/
structure ConsistencyEntry where
  driver : String
  carNo : String
  variance : ℚ
  races : ℕ
deriving DecidableEq, Repr

/-- Population variance of a list: mean of squared deviations from the mean
(divide by N, not N-1).  For the empty list the rational division yields 0;
every use below is guarded by a length threshold. -/
def popVariance (l : List ℚ) : ℚ :=
  (l.map (fun v => (v - l.sum / (l.length : ℚ))^2)).sum / (l.length : ℚ)

/-- The valid 1/8ET samples of one driver, in input order (the `etTimes`
array of `driverETStats`). -/
def validETsFor (l : List RaceRecord) (d : String) : List ℚ :=
  (groupOf (·.Driver) (etPool l) d).map (·.eighthET)

/-- The consistency entries of the drivers meeting the 3-sample threshold,
in first-occurrence driver order, before sorting. -/
def consistencyEntries (l : List RaceRecord) : List ConsistencyEntry :=
  ((keysInOrder (·.Driver) (etPool l)).map (fun d =>
    (⟨d, headCarNo (groupOf (·.Driver) (etPool l) d), popVariance (validETsFor l d),
      (validETsFor l d).length⟩ : ConsistencyEntry))).filter
    (fun e => decide (3 ≤ e.races))

/-- Source `consistencyLeaderboard`: drivers with at least 3 valid ET
samples, population standard deviation of those samples, sorted ascending by
standard deviation (equivalently by variance), top 6. -/
def consistencyLeaderboard (l : List RaceRecord) : List ConsistencyEntry :=
  (sSort (fun a b => decide (a.variance ≤ b.variance)) (consistencyEntries l)).take 6

/-- Key of `performanceByRaceNumber`: `Math.min(10, race.RaceNumber || 0)`,
which for an integer race number is `min 10 raceNumber`. -/
def raceNumKey (r : RaceRecord) : ℤ := min 10 r.RaceNumber

/-- One accumulated bucket of `performanceByRaceNumber`: the ET sum and the
count cover the ET-valid records of the bucket, while the reaction and MPH
sums cover their own valid records — the count is bumped only in the ET
branch. -/
structure RawPerf where
  raceNumber : ℤ
  totalET : ℚ
  totalReaction : ℚ
  totalMPH : ℚ
  count : ℕ
deriving DecidableEq, Repr

/-- The accumulated buckets, one per distinct capped race number. -/
def rawPerf (l : List RaceRecord) : List RawPerf :=
  (keysInOrder raceNumKey l).map (fun k =>
    { raceNumber := k
      totalET := (validValues (·.eighthET) (groupOf raceNumKey l k)).sum
      totalReaction := (validValues (·.Reaction) (groupOf raceNumKey l k)).sum
      totalMPH := (validValues (·.eighthMPH) (groupOf raceNumKey l k)).sum
      count := (validValues (·.eighthET) (groupOf raceNumKey l k)).length })

/-- One point of the performance-by-race-number chart. -/
structure TimePerf where
  raceNumber : ℤ
  avgET : ℚ
  avgReaction : ℚ
  avgMPH : ℚ
  count : ℕ
deriving DecidableEq, Repr

/-- Source `timePerformanceData`: buckets with a positive ET count, each
average divided by that single ET count, sorted ascending by race number. -/
def timePerformanceData (l : List RaceRecord) : List TimePerf :=
  sSort (fun a b => decide (a.raceNumber ≤ b.raceNumber))
    (((rawPerf l).filter (fun p => decide (0 < p.count))).map (fun p =>
      { raceNumber := p.raceNumber
        avgET := p.totalET / (p.count : ℚ)
        avgReaction := p.totalReaction / (p.count : ℚ)
        avgMPH := p.totalMPH / (p.count : ℚ)
        count := p.count }))

/-- Grouping key of the win-factor analysis:
the template string `${race.Date}-${race.RaceNumber}`. -/
def raceKey (r : RaceRecord) : String := r.Date ++ ("-") ++ toString r.RaceNumber

/-- The head-to-head groups, one per distinct (date, race number) key. -/
def raceGroups (l : List RaceRecord) : List (List RaceRecord) :=
  (keysInOrder raceKey l).map (groupOf raceKey l)

/-- The `winAnalysis` accumulator of the win-factor analysis. -/
structure WinAnalysis where
  betterReaction : ℕ
  better60ft : ℕ
  better330 : ℕ
  betterMPH : ℕ
  totalComparisons : ℕ
deriving DecidableEq, Repr

/-- Processing of one head-to-head group: groups that do not have exactly
two records, or no Win record, or no Loss record, are skipped; otherwise the
total is bumped and each factor is bumped when both values are truthy
(nonzero) and the value of the winner is better. -/
def tallyGroup (acc : WinAnalysis) (g : List RaceRecord) : WinAnalysis :=
  if g.length = 2 then
    match g.find? (fun r => decide (r.WinLoss = ("Win"))),
          g.find? (fun r => decide (r.WinLoss = ("Loss"))) with
    | some w, some lo =>
      { betterReaction := acc.betterReaction +
          (if w.Reaction ≠ 0 ∧ lo.Reaction ≠ 0 ∧ w.Reaction < lo.Reaction then 1 else 0)
        better60ft := acc.better60ft +
          (if w.sixtyFt ≠ 0 ∧ lo.sixtyFt ≠ 0 ∧ w.sixtyFt < lo.sixtyFt then 1 else 0)
        better330 := acc.better330 +
          (if w.threeThirtyFt ≠ 0 ∧ lo.threeThirtyFt ≠ 0 ∧ w.threeThirtyFt < lo.threeThirtyFt then 1 else 0)
        betterMPH := acc.betterMPH +
          (if w.eighthMPH ≠ 0 ∧ lo.eighthMPH ≠ 0 ∧ lo.eighthMPH < w.eighthMPH then 1 else 0)
        totalComparisons := acc.totalComparisons + 1 }
    | _, _ => acc
  else acc

/-- The accumulated win-factor tallies over all head-to-head groups. -/
def winAnalysisOf (l : List RaceRecord) : WinAnalysis :=
  (raceGroups l).foldl tallyGroup ⟨0, 0, 0, 0, 0⟩

/-- Source `winFactorsData`: each tally divided by the total comparison
count and scaled to a percentage.  With zero comparisons every division is
0/0, i.e. NaN, modelled as `none`. -/
def winFactorPcts (l : List RaceRecord) : List (String × Option ℚ) :=
  [(("Better Reaction"), (jsDiv ((winAnalysisOf l).betterReaction : ℚ) ((winAnalysisOf l).totalComparisons : ℚ)).map (· * 100)),
   (("Better 60ft"), (jsDiv ((winAnalysisOf l).better60ft : ℚ) ((winAnalysisOf l).totalComparisons : ℚ)).map (· * 100)),
   (("Better 330ft"), (jsDiv ((winAnalysisOf l).better330 : ℚ) ((winAnalysisOf l).totalComparisons : ℚ)).map (· * 100)),
   (("Higher MPH"), (jsDiv ((winAnalysisOf l).betterMPH : ℚ) ((winAnalysisOf l).totalComparisons : ℚ)).map (· * 100))]

/-- One dated sample of the improvement analysis (the `{date, et}` and
`{date, mph}` run objects share this shape). -/
structure Run where
  date : String
  v : ℚ
deriving DecidableEq, Repr

/-- Per-driver progress of the improvement analysis. -/
structure Progress where
  driver : String
  carNo : String
  runs : List Run
deriving DecidableEq, Repr

/-- Entry of the improvement rankings. -/
structure ImpEntry where
  driver : String
  carNo : String
  value : ℚ
  improvementPct : ℚ
deriving DecidableEq, Repr

/-- The qualifying samples of metric `f` for driver `d`, in input order (the
`runs` array of `driverProgress`). -/
def runsForDriver (f : RaceRecord → ℚ) (l : List RaceRecord) (d : String) : List Run :=
  (groupOf (·.Driver) (l.filter (fun r => decide (0 < f r))) d).map (fun r => ⟨r.Date, f r⟩)

/-- The per-driver progress list for metric `f`, in first-occurrence order
of drivers among the qualifying records. -/
def progressOf (f : RaceRecord → ℚ) (l : List RaceRecord) : List Progress :=
  (keysInOrder (·.Driver) (l.filter (fun r => decide (0 < f r)))).map (fun d =>
    ⟨d, headCarNo (groupOf (·.Driver) (l.filter (fun r => decide (0 < f r))) d),
      runsForDriver f l d⟩)

/-- Chronological stable sort of runs under the external date parser `dt`. -/
def sortRunsByDate (dt : String → ℤ) (runs : List Run) : List Run :=
  sSort (fun a b => decide (dt a.date ≤ dt b.date)) runs

/-- Average of the first two chronologically sorted runs (`firstRuns`). -/
def earlyAvgOf (dt : String → ℤ) (g : Progress) : ℚ :=
  (((sortRunsByDate dt g.runs).take 2).map (·.v)).sum / (((sortRunsByDate dt g.runs).take 2).length : ℚ)

/-- Average of the last two chronologically sorted runs (`slice(-2)`). -/
def lateAvgOf (dt : String → ℤ) (g : Progress) : ℚ :=
  (((sortRunsByDate dt g.runs).drop ((sortRunsByDate dt g.runs).length - 2)).map (·.v)).sum
    / (((sortRunsByDate dt g.runs).drop ((sortRunsByDate dt g.runs).length - 2)).length : ℚ)

/-- The ET improvement entry of one driver: delta = late average minus early
average (negative is better for ET), percentage = (early - late)/early. -/
def mkImproveET (dt : String → ℤ) (g : Progress) : ImpEntry :=
  ⟨displayNameTrail g.driver, g.carNo, lateAvgOf dt g - earlyAvgOf dt g,
    (earlyAvgOf dt g - lateAvgOf dt g) / earlyAvgOf dt g * 100⟩

/-- The MPH improvement entry of one driver: delta = late minus early
(positive is better for MPH), percentage = (late - early)/early. -/
def mkImproveMPH (dt : String → ℤ) (g : Progress) : ImpEntry :=
  ⟨displayNameTrail g.driver, g.carNo, lateAvgOf dt g - earlyAvgOf dt g,
    (lateAvgOf dt g - earlyAvgOf dt g) / earlyAvgOf dt g * 100⟩

/-- Drivers with at least 4 qualifying ET runs
(`filter(driver => driver.runs.length >= 4)`). -/
def improvementEligible (l : List RaceRecord) : List Progress :=
  (progressOf (·.eighthET) l).filter (fun g => decide (4 ≤ g.runs.length))

/-- The eligible drivers mapped to ET improvement entries, before sorting. -/
def improvementEntries (dt : String → ℤ) (l : List RaceRecord) : List ImpEntry :=
  (improvementEligible l).map (mkImproveET dt)

/-- Source `improvementData`: eligible drivers mapped to ET improvement
entries, sorted ascending by delta (most improved first), top 10. -/
def improvementData (dt : String → ℤ) (l : List RaceRecord) : List ImpEntry :=
  (sSort (fun a b => decide (a.value ≤ b.value)) (improvementEntries dt l)).take 10

/-- Drivers with at least 4 qualifying MPH runs. -/
def mphImprovementEligible (l : List RaceRecord) : List Progress :=
  (progressOf (·.eighthMPH) l).filter (fun g => decide (4 ≤ g.runs.length))

/-- The eligible drivers mapped to MPH improvement entries, before sorting. -/
def mphImprovementEntries (dt : String → ℤ) (l : List RaceRecord) : List ImpEntry :=
  (mphImprovementEligible l).map (mkImproveMPH dt)

/-- Source `mphImprovementData`: eligible drivers mapped to MPH improvement
entries, sorted descending by delta, top 10. -/
def mphImprovementData (dt : String → ℤ) (l : List RaceRecord) : List ImpEntry :=
  (sSort (fun a b => decide (b.value ≤ a.value)) (mphImprovementEntries dt l)).take 10

/-! ## Concrete datasets used by the witnesses and counterexamples -/

/-- Concrete record with fixed opponent fields. -/
def mkR (d c dat : String) (n : ℤ) (re s60 s330 et mph : ℚ) (wl : String) : RaceRecord :=
  ⟨d, c, dat, n, re, s60, s330, et, mph, ("Opp"), ("99"), wl⟩

/-- One unpaired Win record: its (date, race number) group has one member,
so the win-factor analysis counts zero valid comparisons. -/
def dataC1 : List RaceRecord := [mkR ("Al") ("1") ("2024-05-01") 1 (1/2) 0 0 8 80 ("Win")]

/-- Two drivers with the identical average reaction 5, so the global min
and max of reaction means coincide. -/
def dataC2 : List RaceRecord :=
  [mkR ("Al") ("1") ("d1") 1 5 0 0 8 80 ("Win"),
   mkR ("Bo") ("2") ("d1") 2 5 0 0 9 70 ("Loss")]

/-- One record with MPH 100 and one with the nonpositive MPH -10. -/
def dataC3 : List RaceRecord :=
  [mkR ("Al") ("1") ("d1") 1 0 0 0 0 100 ("Win"),
   mkR ("Bo") ("2") ("d1") 2 0 0 0 0 (-10) ("Loss")]

/-- Two records in race-number bucket 1, both with valid ET, only the first
with a valid reaction. -/
def dataC3b : List RaceRecord :=
  [mkR ("Al") ("1") ("d1") 1 1 0 0 10 0 ("Win"),
   mkR ("Bo") ("2") ("d1") 1 0 0 0 10 0 ("Loss")]

/-- A driver with exactly two races, both wins. -/
def dataC4 : List RaceRecord :=
  [mkR ("Al") ("1") ("d1") 1 0 0 0 0 0 ("Win"),
   mkR ("Al") ("1") ("d2") 1 0 0 0 0 0 ("Win")]

/-- Seven distinct drivers, each with one win. -/
def dataC5 : List RaceRecord :=
  [mkR ("D1") ("1") ("d1") 1 0 0 0 0 0 ("Win"),
   mkR ("D2") ("2") ("d1") 2 0 0 0 0 0 ("Win"),
   mkR ("D3") ("3") ("d1") 3 0 0 0 0 0 ("Win"),
   mkR ("D4") ("4") ("d1") 4 0 0 0 0 0 ("Win"),
   mkR ("D5") ("5") ("d1") 5 0 0 0 0 0 ("Win"),
   mkR ("D6") ("6") ("d1") 6 0 0 0 0 0 ("Win"),
   mkR ("D7") ("7") ("d1") 7 0 0 0 0 0 ("Win")]

/-- One driver with exactly three valid ET samples 7, 8, 9 (mean 8,
population variance 2/3). -/
def dataC6 : List RaceRecord :=
  [mkR ("Al") ("1") ("d1") 1 0 0 0 7 0 ("Win"),
   mkR ("Al") ("1") ("d2") 1 0 0 0 8 0 ("Loss"),
   mkR ("Al") ("1") ("d3") 1 0 0 0 9 0 ("Win")]

/-- The consistency entry produced for `dataC6`. -/
def entryC6 : ConsistencyEntry := ⟨("Al"), ("1"), 2/3, 3⟩

/-- One driver with four valid ET and MPH samples, dated so that string
length orders the dates chronologically. -/
def dataC7 : List RaceRecord :=
  [mkR ("Al") ("1") ("1") 1 0 0 0 8 50 ("Win"),
   mkR ("Al") ("1") ("22") 1 0 0 0 7 60 ("Loss"),
   mkR ("Al") ("1") ("333") 1 0 0 0 6 70 ("Win"),
   mkR ("Al") ("1") ("4444") 1 0 0 0 5 80 ("Win")]

/-- Concrete date parser for `dataC7`: the date-string length. -/
def dtC7 : String → ℤ := fun s => (s.length : ℤ)

/-- A driver with two races and no valid reaction time (one negative, one
zero), but valid ET values. -/
def dataC8 : List RaceRecord :=
  [mkR ("Al") ("1") ("d1") 1 (-1) 0 0 8 80 ("Win"),
   mkR ("Al") ("1") ("d2") 2 0 0 0 9 70 ("Loss")]

/-- One valid record used to keep the C3 rollup nonempty. -/
def recC3valid : RaceRecord := mkR ("Al") ("1") ("d1") 1 (1/2) 1 2 8 80 ("Win")

/-- A record of the same driver whose five metrics are all nonpositive. -/
def recC3invalid : RaceRecord := mkR ("Al") ("1") ("d0") 1 (-1) (-1) (-1) (-1) (-1) ("Loss")

/-- A record whose reaction time 0.001 lies in the interval (0, 0.001]. -/
def recC10 : RaceRecord := mkR ("Al") ("1") ("d1") 1 ((1 : ℚ)/1000) 0 0 8 80 ("Win")

/-- Dataset holding only `recC10`. -/
def dataC10 : List RaceRecord := [recC10]

/-! ## Properties of the stable sort -/

theorem sInsert_perm (le : α → α → Bool) (a : α) (l : List α) :
    (sInsert le a l).Perm (a :: l) := by
  induction l with
  | nil => exact List.Perm.refl _
  | cons b t ih =>
    by_cases h : le a b = true
    · simp [sInsert, h]
    · simp only [sInsert, h, if_neg, Bool.not_eq_true, ite_false]
      exact ((ih.cons b).trans (List.Perm.swap a b t))

theorem sSort_perm (le : α → α → Bool) (l : List α) : (sSort le l).Perm l := by
  induction l with
  | nil => exact List.Perm.refl _
  | cons x xs ih => exact (sInsert_perm le x (sSort le xs)).trans (ih.cons x)

theorem length_sSort (le : α → α → Bool) (l : List α) : (sSort le l).length = l.length :=
  (sSort_perm le l).length_eq

theorem mem_sSort (le : α → α → Bool) (l : List α) (x : α) : x ∈ sSort le l ↔ x ∈ l :=
  (sSort_perm le l).mem_iff

theorem pairwise_sInsert (le : α → α → Bool)
    (htr : ∀ a b c, le a b = true → le b c = true → le a c = true)
    (hto : ∀ a b, le a b = true ∨ le b a = true)
    (a : α) (l : List α) (hl : List.Pairwise (fun x y => le x y = true) l) :
    List.Pairwise (fun x y => le x y = true) (sInsert le a l) := by
  induction l with
  | nil => exact List.pairwise_singleton _ a
  | cons b t ih =>
    by_cases h : le a b = true
    · simp only [sInsert, h, ite_true]
      refine List.Pairwise.cons ?_ hl
      intro x hx
      rcases List.mem_cons.mp hx with rfl | hx
      · exact h
      · exact htr a b x h (List.rel_of_pairwise_cons hl hx)
    · simp only [sInsert, h, ite_false]
      rcases hl with _ | ⟨hb, ht⟩
      refine List.Pairwise.cons ?_ (ih ht)
      intro x hx
      rcases List.mem_cons.mp ((sInsert_perm le a t).mem_iff.mp hx) with rfl | hx
      · exact (hto x b).resolve_left h
      · exact hb x hx

theorem sorted_sSort (le : α → α → Bool)
    (htr : ∀ a b c, le a b = true → le b c = true → le a c = true)
    (hto : ∀ a b, le a b = true ∨ le b a = true)
    (l : List α) : List.Pairwise (fun x y => le x y = true) (sSort le l) := by
  induction l with
  | nil => exact List.Pairwise.nil
  | cons x xs ih => exact pairwise_sInsert le htr hto x (sSort le xs) ih

theorem filter_sInsert (le : α → α → Bool) (p : α → Bool)
    (hp : ∀ a b, p a = true → p b = true → le a b = true)
    (a : α) (l : List α) :
    (sInsert le a l).filter p = if p a = true then a :: l.filter p else l.filter p := by
  induction l with
  | nil => simp [sInsert, List.filter_cons]
  | cons b t ih =>
    by_cases hab : le a b = true
    · simp [sInsert, hab, List.filter_cons]
    · simp only [sInsert, hab, ite_false, List.filter_cons]
      by_cases hpa : p a = true
      · have hpb : ¬ p b = true := fun hpb => hab (hp a b hpa hpb)
        simp [hpa, hpb, ih, List.filter_cons]
      · simp only [hpa, ite_false] at ih ⊢
        by_cases hpb : p b = true <;> simp [hpb, ih, hpa]

theorem sSort_filter (le : α → α → Bool) (p : α → Bool)
    (hp : ∀ a b, p a = true → p b = true → le a b = true)
    (l : List α) : (sSort le l).filter p = l.filter p := by
  induction l with
  | nil => rfl
  | cons x xs ih =>
    show (sInsert le x (sSort le xs)).filter p = _
    rw [filter_sInsert le p hp, ih, List.filter_cons]

/-- Transitivity obligation for ascending comparators over a linear order. -/
theorem decideLeTrans [LinearOrder β] (f : α → β) :
    ∀ a b c : α, decide (f a ≤ f b) = true → decide (f b ≤ f c) = true →
      decide (f a ≤ f c) = true := by
  intro a b c hab hbc
  simp only [decide_eq_true_eq] at *
  exact le_trans hab hbc

/-- Totality obligation for ascending comparators over a linear order. -/
theorem decideLeTotal [LinearOrder β] (f : α → β) :
    ∀ a b : α, decide (f a ≤ f b) = true ∨ decide (f b ≤ f a) = true := by
  intro a b
  simp only [decide_eq_true_eq]
  exact le_total (f a) (f b)

/-- Transitivity obligation for descending comparators over a linear order. -/
theorem decideGeTrans [LinearOrder β] (f : α → β) :
    ∀ a b c : α, decide (f b ≤ f a) = true → decide (f c ≤ f b) = true →
      decide (f c ≤ f a) = true := by
  intro a b c hab hbc
  simp only [decide_eq_true_eq] at *
  exact le_trans hbc hab

/-- Totality obligation for descending comparators over a linear order. -/
theorem decideGeTotal [LinearOrder β] (f : α → β) :
    ∀ a b : α, decide (f b ≤ f a) = true ∨ decide (f a ≤ f b) = true := by
  intro a b
  simp only [decide_eq_true_eq]
  exact le_total (f b) (f a)

/-! ## Properties of the keyed grouping -/

theorem mem_foldl_keys (key : α → κ) [DecidableEq κ] :
    ∀ (l : List α) (acc : List κ) (k : κ),
      (k ∈ l.foldl (fun acc a => if key a ∈ acc then acc else acc ++ [key a]) acc ↔
        k ∈ acc ∨ ∃ a ∈ l, key a = k) := by
  intro l
  induction l with
  | nil => simp
  | cons a t ih =>
    intro acc k
    rw [List.foldl_cons, ih]
    by_cases h : key a ∈ acc
    · simp only [h, ite_true]
      constructor
      · rintro (hk | ⟨b, hb, rfl⟩)
        · exact Or.inl hk
        · exact Or.inr ⟨b, List.mem_cons_of_mem a hb, rfl⟩
      · rintro (hk | ⟨b, hb, rfl⟩)
        · exact Or.inl hk
        · rcases List.mem_cons.mp hb with rfl | hb
          · exact Or.inl h
          · exact Or.inr ⟨b, hb, rfl⟩
    · simp only [h, ite_false, List.mem_append, List.mem_singleton]
      constructor
      · rintro ((hk | hk) | ⟨b, hb, rfl⟩)
        · exact Or.inl hk
        · exact Or.inr ⟨a, List.mem_cons_self a t, hk.symm⟩
        · exact Or.inr ⟨b, List.mem_cons_of_mem a hb, rfl⟩
      · rintro (hk | ⟨b, hb, rfl⟩)
        · exact Or.inl (Or.inl hk)
        · rcases List.mem_cons.mp hb with rfl | hb
          · exact Or.inl (Or.inr rfl)
          · exact Or.inr ⟨b, hb, rfl⟩

theorem mem_keysInOrder (key : α → κ) [DecidableEq κ] (l : List α) (k : κ) :
    k ∈ keysInOrder key l ↔ ∃ a ∈ l, key a = k := by
  rw [keysInOrder, mem_foldl_keys]
  simp

theorem mem_groupOf (key : α → κ) [DecidableEq κ] (l : List α) (k : κ) (a : α) :
    a ∈ groupOf key l k ↔ a ∈ l ∧ key a = k := by
  simp [groupOf, List.mem_filter]

theorem groupOf_ne_nil (key : α → κ) [DecidableEq κ] (l : List α) (k : κ)
    (h : k ∈ keysInOrder key l) : groupOf key l k ≠ [] := by
  rcases (mem_keysInOrder key l k).mp h with ⟨a, ha, hk⟩
  intro hnil
  have : a ∈ groupOf key l k := (mem_groupOf key l k a).mpr ⟨ha, hk⟩
  rw [hnil] at this
  exact (List.not_mem_nil a) this

/-! ## Claim C1: win-factor percentages with zero valid comparisons -/

/-- C1 (amended): when the number of valid head-to-head comparisons is zero,
every reported win-factor percentage is the non-finite result of dividing
zero by zero (NaN, modelled `none`) — not zero; when the comparison count is
nonzero every percentage is a defined rational. -/
theorem winFactors_zero_comparisons_nan :
    ∀ l : List RaceRecord,
      ((winAnalysisOf l).totalComparisons = 0 →
        winFactorPcts l = [(("Better Reaction"), none), (("Better 60ft"), none),
          (("Better 330ft"), none), (("Higher MPH"), none)]) ∧
      ((winAnalysisOf l).totalComparisons ≠ 0 →
        ∀ p ∈ winFactorPcts l, p.2.isSome = true) := by
  intro l
  constructor
  · intro h
    simp [winFactorPcts, jsDiv, h]
  · intro h p hp
    have hq : ((winAnalysisOf l).totalComparisons : ℚ) ≠ 0 := by exact_mod_cast h
    simp only [winFactorPcts, jsDiv, hq, ite_false, List.mem_cons, List.not_mem_nil,
      or_false] at hp
    rcases hp with rfl | rfl | rfl | rfl <;> rfl

/-- C1 witness: the single unpaired record of `dataC1` yields zero valid
comparisons and the NaN percentages, via the amended theorem. -/
theorem winFactors_zero_comparisons_nan_witness :
    (winAnalysisOf dataC1).totalComparisons = 0 ∧
      winFactorPcts dataC1 = [(("Better Reaction"), none), (("Better 60ft"), none),
        (("Better 330ft"), none), (("Higher MPH"), none)] :=
  ⟨by decide, (winFactors_zero_comparisons_nan dataC1).1 (by decide)⟩

/-- C1 counterexample: on `dataC1` the number of valid comparisons is zero,
and all four reported percentages are NaN (`none`) rather than the zero the
claim requires. -/
theorem winFactors_counterexample :
    (winAnalysisOf dataC1).totalComparisons = 0 ∧
      (winFactorPcts dataC1).map Prod.snd = [none, none, none, none] ∧
      (winFactorPcts dataC1).map Prod.snd ≠
        [some (0 : ℚ), some 0, some 0, some 0] := by decide

/-! ## Claim C2: radar normalization in the degenerate min = max case -/

/-- C2 (amended): when the global minimum of driver means equals the global
maximum, `normalizeInverted` and `normalizeDirectly` divide by zero and
produce a non-finite value (NaN, modelled `none`) — not the midpoint 50; in
particular the radar Reaction score is `none` in that case. -/
theorem normalize_degenerate_nan :
    (∀ v mn mx : ℚ, mn = mx →
      normalizeInverted v mn mx = none ∧ normalizeDirectly v mn mx = none) ∧
    (∀ (sel : String) (l : List RaceRecord) (mn mx : ℚ),
      findMinMax (driverMeans (·.Reaction) l) = some (mn, mx) → mn = mx →
        radarReactionValue sel l = none) := by
  constructor
  · rintro v mn mx rfl
    constructor <;> simp [normalizeInverted, normalizeDirectly, jsDiv]
  · intro sel l mn mx hr hmx
    cases hds : driverStatsFor sel l with
    | none => simp [radarReactionValue, hds, hr]
    | some s =>
      subst hmx
      simp [radarReactionValue, hds, hr, normalizeInverted, jsDiv]

/-- C2 witness: the degenerate normalization at the concrete input
(value 2, min 1, max 1), via the amended theorem. -/
theorem normalize_degenerate_nan_witness :
    normalizeInverted 2 1 1 = none ∧ normalizeDirectly 2 1 1 = none :=
  normalize_degenerate_nan.1 2 1 1 rfl

/-- C2 counterexample: on `dataC2` every driver has the same mean reaction,
and the reported radar Reaction score is NaN (`none`), not the fixed
midpoint 50 that the claim requires. -/
theorem normalize_degenerate_counterexample :
    radarReactionValue ("Al") dataC2 = none ∧
      radarReactionValue ("Al") dataC2 ≠ some 50 := by
  have hm : driverMeans (fun r => r.Reaction) dataC2 = [5, 5] := by
    simp [driverMeans, keysInOrder, groupOf, validValues, dataC2, mkR]
  obtain ⟨s, hs⟩ : ∃ s, driverStatsFor ("Al") dataC2 = some s := ⟨_, rfl⟩
  have hr : radarReactionValue ("Al") dataC2 = none := by
    simp [radarReactionValue, hs, findMinMax, hm, normalizeInverted, jsDiv]
  exact ⟨hr, by simp [hr]⟩

/-! ## Claim C3: nonpositive metric values and the aggregates -/

/-- Removing a record whose value of metric `f` is nonpositive does not
change the valid-value list of `f`: such a record enters neither the
numerator, the count, nor the min/max of any aggregate built from
`validValues`. -/
theorem validValues_insert (f : RaceRecord → ℚ) (l₁ l₂ : List RaceRecord) (r : RaceRecord)
    (h : f r ≤ 0) : validValues f (l₁ ++ r :: l₂) = validValues f (l₁ ++ l₂) := by
  unfold validValues
  rw [List.filter_append, List.filter_append, List.filter_cons,
    decide_eq_false (not_lt.mpr h)]
  simp

/-- Characterization of `driverStatsFor` when the selection is nonempty and
matches at least one record. -/
theorem driverStatsFor_eq (sel : String) (l : List RaceRecord) (hsel : ¬ sel = (""))
    (hne : l.filter (fun r => decide (r.Driver = sel)) ≠ []) :
    driverStatsFor sel l =
      some (mkDriverStats sel (l.filter (fun r => decide (r.Driver = sel)))) := by
  have hl : ¬ l = [] := by
    intro h
    subst h
    exact hne rfl
  unfold driverStatsFor
  rw [if_neg (by simp [hsel, hl])]
  cases h : l.filter (fun r => decide (r.Driver = sel)) with
  | nil => exact absurd h hne
  | cons a t => rfl

/-- C3 (amended): a record whose value for a metric is nonpositive never
contributes to the valid-value list of that metric, hence not to any
filtered average, min, or max — in particular all ten aggregate fields of
the per-driver rollup are unchanged by such a record.  (The dashboard
stats-overview Average MPH/ET and the per-race-number avgReaction/avgMPH
denominators are exceptions, established by the counterexample.) -/
theorem nonpositive_metrics_excluded :
    (∀ (f : RaceRecord → ℚ) (l₁ l₂ : List RaceRecord) (r : RaceRecord), f r ≤ 0 →
      validValues f (l₁ ++ r :: l₂) = validValues f (l₁ ++ l₂)) ∧
    (∀ (sel : String) (l₁ l₂ : List RaceRecord) (r : RaceRecord),
      r.Reaction ≤ 0 → r.sixtyFt ≤ 0 → r.threeThirtyFt ≤ 0 → r.eighthET ≤ 0 →
      r.eighthMPH ≤ 0 → ¬ sel = ("") →
      (l₁ ++ l₂).filter (fun x => decide (x.Driver = sel)) ≠ [] →
      aggFields (driverStatsFor sel (l₁ ++ r :: l₂)) =
        aggFields (driverStatsFor sel (l₁ ++ l₂))) := by
  refine ⟨validValues_insert, ?_⟩
  intro sel l₁ l₂ r h1 h2 h3 h4 h5 hsel hne
  by_cases hr : r.Driver = sel
  · have hsplit : (l₁ ++ r :: l₂).filter (fun x => decide (x.Driver = sel)) =
        l₁.filter (fun x => decide (x.Driver = sel)) ++ r ::
          l₂.filter (fun x => decide (x.Driver = sel)) := by
      rw [List.filter_append, List.filter_cons]
      simp [hr]
    have hsplit2 : (l₁ ++ l₂).filter (fun x => decide (x.Driver = sel)) =
        l₁.filter (fun x => decide (x.Driver = sel)) ++
          l₂.filter (fun x => decide (x.Driver = sel)) := List.filter_append _ _
    have hne1 : (l₁ ++ r :: l₂).filter (fun x => decide (x.Driver = sel)) ≠ [] := by
      rw [hsplit]
      intro hcon
      rcases List.append_eq_nil.mp hcon with ⟨-, hcons⟩
      exact List.cons_ne_nil _ _ hcons
    have hv : ∀ f : RaceRecord → ℚ, f r ≤ 0 →
        validValues f ((l₁ ++ r :: l₂).filter (fun x => decide (x.Driver = sel))) =
          validValues f ((l₁ ++ l₂).filter (fun x => decide (x.Driver = sel))) := by
      intro f hf
      rw [hsplit, hsplit2]
      exact validValues_insert f _ _ r hf
    rw [driverStatsFor_eq sel _ hsel hne1, driverStatsFor_eq sel _ hsel hne]
    simp only [aggFields, Option.map_some', mkDriverStats,
      hv _ h1, hv _ h2, hv _ h3, hv _ h4, hv _ h5]
  · have hsame : (l₁ ++ r :: l₂).filter (fun x => decide (x.Driver = sel)) =
        (l₁ ++ l₂).filter (fun x => decide (x.Driver = sel)) := by
      rw [List.filter_append, List.filter_append, List.filter_cons,
        decide_eq_false hr]
      simp
    have hne1 : (l₁ ++ r :: l₂).filter (fun x => decide (x.Driver = sel)) ≠ [] := by
      rw [hsame]
      exact hne
    rw [driverStatsFor_eq sel _ hsel hne1, driverStatsFor_eq sel _ hsel hne, hsame]

/-- C3 witness: the all-nonpositive record `recC3invalid` leaves the valid
MPH values and all ten rollup aggregates of driver Al unchanged, via the
amended theorem. -/
theorem nonpositive_metrics_excluded_witness :
    (recC3invalid.eighthMPH ≤ 0 ∧
      validValues (fun r => r.eighthMPH) ([recC3valid] ++ recC3invalid :: []) =
        validValues (fun r => r.eighthMPH) ([recC3valid] ++ [])) ∧
    aggFields (driverStatsFor ("Al") ([recC3valid] ++ recC3invalid :: [])) =
      aggFields (driverStatsFor ("Al") ([recC3valid] ++ [])) :=
  ⟨⟨by decide, nonpositive_metrics_excluded.1 _ [recC3valid] [] recC3invalid (by decide)⟩,
    nonpositive_metrics_excluded.2 ("Al") [recC3valid] [] recC3invalid (by decide) (by decide)
      (by decide) (by decide) (by decide) (by decide) (by decide)⟩

/-- C3 counterexample: in the dashboard stats overview, the record with
MPH -10 enters both the numerator and the denominator of the Average MPH
(45 instead of the valid-sample average 100); and in the per-race-number
aggregates, the record with reaction 0 still enters the avgReaction
denominator (1/2 instead of the valid-sample average 1). -/
theorem nonpositive_metrics_counterexample :
    dashAvgMPH dataC3 = some 45 ∧
      calcAverage (validValues (fun r => r.eighthMPH) dataC3) = 100 ∧
      (45 : ℚ) ≠ 100 ∧
      (timePerformanceData dataC3b).map (fun t => t.avgReaction) = [1/2] ∧
      calcAverage (validValues (fun r => r.Reaction) dataC3b) = 1 ∧
      (1/2 : ℚ) ≠ 1 := by
  refine ⟨?_, ?_, by norm_num, ?_, ?_, by norm_num⟩
  · norm_num [dashAvgMPH, jsDiv, dataC3, mkR]
  · simp [calcAverage, validValues, dataC3, mkR]
  · simp [timePerformanceData, rawPerf, keysInOrder, groupOf, validValues, raceNumKey,
      sSort, sInsert, dataC3b, mkR]
  · simp [calcAverage, validValues, dataC3b, mkR]

/-! ## Claim C4: minimum race count for win-rate rankings -/

/-- C4 (amended): the statistics win-rate leaderboard applies the minimum of
3 races — a driver is in its eligible pool exactly when they have at least 3
races, and every entry of the final leaderboard has at least 3 races.  (The
dashboard win-percentage ranking applies no minimum, established by the
counterexample.) -/
theorem winRate_threshold :
    ∀ (l : List RaceRecord) (d : String),
      ((∃ s ∈ winRateEligible l, s.driver = d) ↔
        3 ≤ (l.filter (fun r => decide (r.Driver = d))).length) ∧
      (∀ e ∈ winRateLeaderboard l, 3 ≤ e.races) := by
  intro l d
  constructor
  · constructor
    · rintro ⟨s, hs, rfl⟩
      rcases List.mem_filter.mp hs with ⟨hmem, hr⟩
      rcases List.mem_map.mp hmem with ⟨k, hk, hEq⟩
      have hd : k = s.driver := by rw [← hEq]
      have hraces : s.races = (groupOf (fun x => x.Driver) l s.driver).length := by
        rw [← hEq, hd]
      rw [decide_eq_true_eq] at hr
      rw [hraces] at hr
      exact hr
    · intro hlen
      have hne : l.filter (fun r => decide (r.Driver = d)) ≠ [] := by
        intro hcon
        rw [hcon] at hlen
        exact absurd hlen (by decide)
      rcases List.exists_mem_of_ne_nil _ hne with ⟨a, ha⟩
      rcases List.mem_filter.mp ha with ⟨hal, had⟩
      rw [decide_eq_true_eq] at had
      have hkey : d ∈ keysInOrder (fun x => x.Driver) l :=
        (mem_keysInOrder _ l d).mpr ⟨a, hal, had⟩
      refine ⟨⟨d, headCarNo (groupOf (fun x => x.Driver) l d),
        ((groupOf (fun x => x.Driver) l d).filter
          (fun r => decide (r.WinLoss = ("Win")))).length,
        (groupOf (fun x => x.Driver) l d).length⟩, ?_, rfl⟩
      refine List.mem_filter.mpr ⟨?_, ?_⟩
      · exact List.mem_map.mpr ⟨d, hkey, rfl⟩
      · rw [decide_eq_true_eq]
        exact hlen
  · intro e he
    have he2 : e ∈ sSort (fun a b => decide (b.value ≤ a.value))
        ((winRateEligible l).map (fun t =>
          (⟨t.driver, t.carNo, ((t.wins : ℚ) / (t.races : ℚ)) * 100, t.races⟩ : WinRateEntry))) :=
      List.Sublist.mem he (List.take_sublist _ _)
    rw [mem_sSort] at he2
    rcases List.mem_map.mp he2 with ⟨t, ht, hEq⟩
    rcases List.mem_filter.mp ht with ⟨-, hr⟩
    rw [decide_eq_true_eq] at hr
    have : e.races = t.races := by rw [← hEq]
    rw [this]
    exact hr

/-- C4 witness: driver Al has 3 races in `dataC6`, and is therefore in the
eligible pool of the statistics win-rate leaderboard, via the amended
theorem. -/
theorem winRate_threshold_witness :
    3 ≤ (dataC6.filter (fun r => decide (r.Driver = ("Al")))).length ∧
      ∃ s ∈ winRateEligible dataC6, s.driver = ("Al") :=
  ⟨by decide, ((winRate_threshold dataC6 ("Al")).1).mpr (by decide)⟩

/-! ## Claim C5: leaderboard length bounds, sort directions, stability -/

/-- Take of an ascending stable sort is pairwise ascending in the sort key. -/
theorem pairwise_take_sSort [LinearOrder β] (g : α → β) (n : ℕ) (xs : List α) :
    List.Pairwise (fun a b => g a ≤ g b)
      ((sSort (fun a b => decide (g a ≤ g b)) xs).take n) := by
  have hs := sorted_sSort (fun a b => decide (g a ≤ g b))
    (decideLeTrans g) (decideLeTotal g) xs
  exact (List.Pairwise.sublist (List.take_sublist n _) hs).imp
    (fun h => by rw [decide_eq_true_eq] at h; exact h)

/-- Take of a descending stable sort is pairwise descending in the sort key. -/
theorem pairwise_take_sSort_desc [LinearOrder β] (g : α → β) (n : ℕ) (xs : List α) :
    List.Pairwise (fun a b => g b ≤ g a)
      ((sSort (fun a b => decide (g b ≤ g a)) xs).take n) := by
  have hs := sorted_sSort (fun a b => decide (g b ≤ g a))
    (decideGeTrans g) (decideGeTotal g) xs
  exact (List.Pairwise.sublist (List.take_sublist n _) hs).imp
    (fun h => by rw [decide_eq_true_eq] at h; exact h)

/-- Stability of a truncated record-level leaderboard: the entries holding
any fixed metric value `v` appear in the leaderboard as an initial run of
the input records holding `v`, in input order. -/
theorem filter_take_stability (le : RaceRecord → RaceRecord → Bool) (f : RaceRecord → ℚ)
    (hle : ∀ a b, f a = f b → le a b = true) (pool : List RaceRecord) (n : ℕ) (v : ℚ) :
    ∃ rest, (pool.filter (fun r => decide (f r = v))).map (mkEntry f) =
      (((sSort le pool).take n).map (mkEntry f)).filter
        (fun e => decide (e.value = v)) ++ rest := by
  have h2 : (sSort le pool).filter (fun r => decide (f r = v)) =
      pool.filter (fun r => decide (f r = v)) := by
    refine sSort_filter le _ ?_ pool
    intro a b ha hb
    rw [decide_eq_true_eq] at ha hb
    exact hle a b (by rw [ha, hb])
  refine ⟨(((sSort le pool).drop n).filter (fun r => decide (f r = v))).map (mkEntry f), ?_⟩
  calc (pool.filter (fun r => decide (f r = v))).map (mkEntry f)
      = ((sSort le pool).filter (fun r => decide (f r = v))).map (mkEntry f) := by rw [h2]
    _ = ((((sSort le pool).take n) ++ ((sSort le pool).drop n)).filter
          (fun r => decide (f r = v))).map (mkEntry f) := by rw [List.take_append_drop]
    _ = (((sSort le pool).take n).filter (fun r => decide (f r = v))).map (mkEntry f) ++
          (((sSort le pool).drop n).filter (fun r => decide (f r = v))).map (mkEntry f) := by
        rw [List.filter_append, List.map_append]
    _ = (((sSort le pool).take n).map (mkEntry f)).filter (fun e => decide (e.value = v)) ++
          (((sSort le pool).drop n).filter (fun r => decide (f r = v))).map (mkEntry f) := by
        rw [List.filter_map]
        rfl

/-- Ties under a fixed value make the ascending comparator accept. -/
theorem tiedLeAsc [LinearOrder β] (g : α → β) (v : β) :
    ∀ a b : α, decide (g a = v) = true → decide (g b = v) = true →
      decide (g a ≤ g b) = true := by
  intro a b ha hb
  rw [decide_eq_true_eq] at ha hb
  rw [decide_eq_true_eq, ha, hb]

/-- Ties under a fixed value make the descending comparator accept. -/
theorem tiedLeDesc [LinearOrder β] (g : α → β) (v : β) :
    ∀ a b : α, decide (g a = v) = true → decide (g b = v) = true →
      decide (g b ≤ g a) = true := by
  intro a b ha hb
  rw [decide_eq_true_eq] at ha hb
  rw [decide_eq_true_eq, ha, hb]

/-- Stability of a truncated stable sort, on the sorted elements themselves:
the elements satisfying a predicate that forces ties appear in the truncated
output as an initial run of the input elements satisfying it, in input
order. -/
theorem sSort_take_filter (le : α → α → Bool) (p : α → Bool)
    (hp : ∀ a b, p a = true → p b = true → le a b = true) (xs : List α) (n : ℕ) :
    ∃ rest, xs.filter p = ((sSort le xs).take n).filter p ++ rest := by
  refine ⟨((sSort le xs).drop n).filter p, ?_⟩
  rw [← List.filter_append, List.take_append_drop, sSort_filter le p hp]

/-- C5 (amended): every leaderboard respects its cap — 10 for the four
record-level boards and also for the most-wins, win-rate and improvement
boards, 6 for the consistency board and the dashboard driver charts; every
board is sorted in its documented direction (ascending for times and for the
consistency deviation, descending for speeds, wins, rates and the MPH
improvement); and every board is stable — entries with equal metric values
appear in the board in their original input order (for the record-level
boards the order of the filtered records, for the driver-aggregate boards
the order of the pre-sort entry list). -/
theorem leaderboards_sorted_stable :
    ∀ l : List RaceRecord,
      ((etLeaders l).length ≤ 10 ∧
        List.Pairwise (fun a b => a.value ≤ b.value) (etLeaders l) ∧
        (∀ v : ℚ, ∃ rest,
          ((etPool l).filter (fun r => decide (r.eighthET = v))).map
            (mkEntry (fun r => r.eighthET)) =
          (etLeaders l).filter (fun e => decide (e.value = v)) ++ rest)) ∧
      ((speedLeaders l).length ≤ 10 ∧
        List.Pairwise (fun a b => b.value ≤ a.value) (speedLeaders l) ∧
        (∀ v : ℚ, ∃ rest,
          ((speedPool l).filter (fun r => decide (r.eighthMPH = v))).map
            (mkEntry (fun r => r.eighthMPH)) =
          (speedLeaders l).filter (fun e => decide (e.value = v)) ++ rest)) ∧
      ((reactionLeaders l).length ≤ 10 ∧
        List.Pairwise (fun a b => a.value ≤ b.value) (reactionLeaders l) ∧
        (∀ v : ℚ, ∃ rest,
          ((reactionPool l).filter (fun r => decide (r.Reaction = v))).map
            (mkEntry (fun r => r.Reaction)) =
          (reactionLeaders l).filter (fun e => decide (e.value = v)) ++ rest)) ∧
      ((sixtyFootLeaders l).length ≤ 10 ∧
        List.Pairwise (fun a b => a.value ≤ b.value) (sixtyFootLeaders l) ∧
        (∀ v : ℚ, ∃ rest,
          (((l.filter (fun r => decide (0 < r.sixtyFt)))).filter
            (fun r => decide (r.sixtyFt = v))).map (mkEntry (fun r => r.sixtyFt)) =
          (sixtyFootLeaders l).filter (fun e => decide (e.value = v)) ++ rest)) ∧
      ((winsLeaderboard l).length ≤ 10 ∧
        List.Pairwise (fun a b => b.value ≤ a.value) (winsLeaderboard l) ∧
        (∀ v : ℚ, ∃ rest, (winsEntries l).filter (fun e => decide (e.value = v)) =
          (winsLeaderboard l).filter (fun e => decide (e.value = v)) ++ rest)) ∧
      ((winRateLeaderboard l).length ≤ 10 ∧
        List.Pairwise (fun a b => b.value ≤ a.value) (winRateLeaderboard l) ∧
        (∀ v : ℚ, ∃ rest, (winRateEntries l).filter (fun e => decide (e.value = v)) =
          (winRateLeaderboard l).filter (fun e => decide (e.value = v)) ++ rest)) ∧
      ((consistencyLeaderboard l).length ≤ 6 ∧
        List.Pairwise (fun a b => a.variance ≤ b.variance) (consistencyLeaderboard l) ∧
        (∀ v : ℚ, ∃ rest,
          (consistencyEntries l).filter (fun e => decide (e.variance = v)) =
          (consistencyLeaderboard l).filter (fun e => decide (e.variance = v)) ++ rest)) ∧
      (∀ dt : String → ℤ,
        ((improvementData dt l).length ≤ 10 ∧
          List.Pairwise (fun a b => a.value ≤ b.value) (improvementData dt l) ∧
          (∀ v : ℚ, ∃ rest,
            (improvementEntries dt l).filter (fun e => decide (e.value = v)) =
            (improvementData dt l).filter (fun e => decide (e.value = v)) ++ rest)) ∧
        ((mphImprovementData dt l).length ≤ 10 ∧
          List.Pairwise (fun a b => b.value ≤ a.value) (mphImprovementData dt l) ∧
          (∀ v : ℚ, ∃ rest,
            (mphImprovementEntries dt l).filter (fun e => decide (e.value = v)) =
            (mphImprovementData dt l).filter (fun e => decide (e.value = v)) ++ rest))) ∧
      ((winRateData l).length ≤ 6 ∧
        List.Pairwise (fun a b => b.value ≤ a.value) (winRateData l) ∧
        (∀ v : ℤ, ∃ rest,
          (winRateDataEntries l).filter (fun e => decide (e.value = v)) =
          (winRateData l).filter (fun e => decide (e.value = v)) ++ rest)) ∧
      ((avgReactions l).length ≤ 6 ∧
        List.Pairwise (fun a b => a.value ≤ b.value) (avgReactions l) ∧
        (∀ v : ℚ, ∃ rest,
          (avgReactionEntries l).filter (fun e => decide (e.value = v)) =
          (avgReactions l).filter (fun e => decide (e.value = v)) ++ rest)) ∧
      ((avgSpeeds l).length ≤ 6 ∧
        List.Pairwise (fun a b => b.value ≤ a.value) (avgSpeeds l) ∧
        (∀ v : ℚ, ∃ rest,
          (avgSpeedEntries l).filter (fun e => decide (e.value = v)) =
          (avgSpeeds l).filter (fun e => decide (e.value = v)) ++ rest)) := by
  intro l
  refine ⟨⟨?_, ?_, ?_⟩, ⟨?_, ?_, ?_⟩, ⟨?_, ?_, ?_⟩, ⟨?_, ?_, ?_⟩, ⟨?_, ?_, ?_⟩,
    ⟨?_, ?_, ?_⟩, ⟨?_, ?_, ?_⟩, ?_, ⟨?_, ?_, ?_⟩, ⟨?_, ?_, ?_⟩, ⟨?_, ?_, ?_⟩⟩
  · rw [etLeaders, List.length_map]
    exact List.length_take_le _ _
  · rw [etLeaders, etSorted, List.pairwise_map]
    exact pairwise_take_sSort (fun r : RaceRecord => r.eighthET) 10 (etPool l)
  · intro v
    exact filter_take_stability _ (fun r => r.eighthET)
      (fun a b h => decide_eq_true (le_of_eq h)) (etPool l) 10 v
  · rw [speedLeaders, List.length_map]
    exact List.length_take_le _ _
  · rw [speedLeaders, speedSorted, List.pairwise_map]
    exact pairwise_take_sSort_desc (fun r : RaceRecord => r.eighthMPH) 10 (speedPool l)
  · intro v
    exact filter_take_stability _ (fun r => r.eighthMPH)
      (fun a b h => decide_eq_true (ge_of_eq h)) (speedPool l) 10 v
  · rw [reactionLeaders, List.length_map]
    exact List.length_take_le _ _
  · rw [reactionLeaders, List.pairwise_map]
    exact pairwise_take_sSort (fun r : RaceRecord => r.Reaction) 10 (reactionPool l)
  · intro v
    exact filter_take_stability _ (fun r => r.Reaction)
      (fun a b h => decide_eq_true (le_of_eq h)) (reactionPool l) 10 v
  · rw [sixtyFootLeaders, List.length_map]
    exact List.length_take_le _ _
  · rw [sixtyFootLeaders, List.pairwise_map]
    exact pairwise_take_sSort (fun r : RaceRecord => r.sixtyFt) 10
      (l.filter (fun r => decide (0 < r.sixtyFt)))
  · intro v
    exact filter_take_stability _ (fun r => r.sixtyFt)
      (fun a b h => decide_eq_true (le_of_eq h))
      (l.filter (fun r => decide (0 < r.sixtyFt))) 10 v
  · exact List.length_take_le _ _
  · exact pairwise_take_sSort_desc (fun e : DriverEntry => e.value) 10 _
  · intro v
    exact sSort_take_filter _ _ (tiedLeDesc (fun e : DriverEntry => e.value) v)
      (winsEntries l) 10
  · exact List.length_take_le _ _
  · exact pairwise_take_sSort_desc (fun e : WinRateEntry => e.value) 10 _
  · intro v
    exact sSort_take_filter _ _ (tiedLeDesc (fun e : WinRateEntry => e.value) v)
      (winRateEntries l) 10
  · exact List.length_take_le _ _
  · exact pairwise_take_sSort (fun e : ConsistencyEntry => e.variance) 6 _
  · intro v
    exact sSort_take_filter _ _ (tiedLeAsc (fun e : ConsistencyEntry => e.variance) v)
      (consistencyEntries l) 6
  · intro dt
    refine ⟨⟨?_, ?_, ?_⟩, ⟨?_, ?_, ?_⟩⟩
    · exact List.length_take_le _ _
    · exact pairwise_take_sSort (fun e : ImpEntry => e.value) 10 _
    · intro v
      exact sSort_take_filter _ _ (tiedLeAsc (fun e : ImpEntry => e.value) v)
        (improvementEntries dt l) 10
    · exact List.length_take_le _ _
    · exact pairwise_take_sSort_desc (fun e : ImpEntry => e.value) 10 _
    · intro v
      exact sSort_take_filter _ _ (tiedLeDesc (fun e : ImpEntry => e.value) v)
        (mphImprovementEntries dt l) 10
  · exact List.length_take_le _ _
  · exact pairwise_take_sSort_desc (fun e : NameValue => e.value) 6 _
  · intro v
    exact sSort_take_filter _ _ (tiedLeDesc (fun e : NameValue => e.value) v)
      (winRateDataEntries l) 6
  · exact List.length_take_le _ _
  · exact pairwise_take_sSort (fun e : DriverValue => e.value) 6 _
  · intro v
    exact sSort_take_filter _ _ (tiedLeAsc (fun e : DriverValue => e.value) v)
      (avgReactionEntries l) 6
  · exact List.length_take_le _ _
  · exact pairwise_take_sSort_desc (fun e : DriverValue => e.value) 6 _
  · intro v
    exact sSort_take_filter _ _ (tiedLeDesc (fun e : DriverValue => e.value) v)
      (avgSpeedEntries l) 6

/-- C5 counterexample: with seven winning drivers the most-wins board — a
driver-aggregate leaderboard — has 7 entries, exceeding the cap of 6 that
the claim assigns to driver-aggregate leaderboards (its cap in the code is
10). -/
theorem leaderboards_k_counterexample :
    (winsLeaderboard dataC5).length = 7 ∧ ¬ (7 : ℕ) ≤ 6 := by
  constructor
  · rw [winsLeaderboard, List.length_take, length_sSort, winsEntries, List.length_map]
    decide
  · decide

/-- C4 counterexample: driver Al has only 2 races in `dataC4`, yet the
dashboard win-percentage ranking — a view ranking drivers by win rate —
includes the entry (Al, 100): the minimum of 3 races is not applied in
every such view. -/
theorem winRate_threshold_counterexample :
    (dataC4.filter (fun r => decide (r.Driver = ("Al")))).length = 2 ∧
      ¬ 3 ≤ (2 : ℕ) ∧ (⟨("Al"), 100⟩ : NameValue) ∈ winRateData dataC4 := by
  refine ⟨by decide, by decide, ?_⟩
  have hdn : displayNameTrail ("Al") = ("Al") := by decide
  have h100 : winRateData dataC4 = [⟨("Al"), 100⟩] := by
    simp [winRateData, keysInOrder, groupOf, dataC4, mkR, hdn, sSort, sInsert]
    norm_num [jsRound]
  rw [h100]
  exact List.mem_singleton.mpr rfl

/-! ## Claim C6: consistency ranking -/

/-- Expansion of a sum of squared deviations. -/
theorem sum_sq_dev (ts : List ℚ) (m : ℚ) :
    (ts.map (fun v => (v - m)^2)).sum =
      (ts.map (fun v => v^2)).sum - 2*m*ts.sum + (ts.length : ℚ) * m^2 := by
  induction ts with
  | nil => simp
  | cons x t ih =>
    simp only [List.map_cons, List.sum_cons, List.length_cons, ih]
    push_cast
    ring

/-- The population variance is nonnegative. -/
theorem popVariance_nonneg (ts : List ℚ) : 0 ≤ popVariance ts := by
  unfold popVariance
  refine div_nonneg (List.sum_nonneg ?_) (Nat.cast_nonneg _)
  intro x hx
  rcases List.mem_map.mp hx with ⟨v, -, rfl⟩
  exact sq_nonneg _

/-- On a nonempty sample list, the population variance (divide by N) equals
the mean of squares minus the square of the mean. -/
theorem popVariance_formula (x : ℚ) (ts : List ℚ) :
    popVariance (x :: ts) =
      ((x :: ts).map (fun v => v^2)).sum / ((x :: ts).length : ℚ) -
        ((x :: ts).sum / ((x :: ts).length : ℚ))^2 := by
  have hn : ((x :: ts).length : ℚ) ≠ 0 := by
    rw [List.length_cons]
    exact_mod_cast Nat.succ_ne_zero ts.length
  unfold popVariance
  rw [sum_sq_dev]
  field_simp
  ring

/-- C6: the consistency board has at most 6 entries; every entry belongs to
a driver with at least 3 valid ET samples, carries exactly the sample count
of that driver and the population variance of exactly those samples; the board
is sorted ascending by standard deviation (the square root of the stored
variance, which is nonnegative); and the variance uses the divide-by-N
population formula. -/
theorem consistency_spec :
    ∀ l : List RaceRecord,
      (consistencyLeaderboard l).length ≤ 6 ∧
      (consistencyLeaderboard l).Forall (fun e =>
        3 ≤ e.races ∧ 0 ≤ e.variance ∧ e.races = (validETsFor l e.driver).length ∧
        e.variance = popVariance (validETsFor l e.driver)) ∧
      List.Pairwise (fun a b => Real.sqrt (a.variance : ℝ) ≤ Real.sqrt (b.variance : ℝ))
        (consistencyLeaderboard l) ∧
      (∀ (x : ℚ) (ts : List ℚ), popVariance (x :: ts) =
        ((x :: ts).map (fun v => v^2)).sum / ((x :: ts).length : ℚ) -
          ((x :: ts).sum / ((x :: ts).length : ℚ))^2) := by
  intro l
  refine ⟨List.length_take_le _ _, ?_, ?_, popVariance_formula⟩
  · rw [List.forall_iff_forall_mem]
    intro e he
    have he2 := List.Sublist.mem he (List.take_sublist 6 _)
    rw [mem_sSort] at he2
    rcases List.mem_filter.mp he2 with ⟨hmem, hr⟩
    rcases List.mem_map.mp hmem with ⟨k, -, hEq⟩
    rw [decide_eq_true_eq] at hr
    have hdrv : e.driver = k := by rw [← hEq]
    have hvar : e.variance = popVariance (validETsFor l k) := by rw [← hEq]
    have hrc : e.races = (validETsFor l k).length := by rw [← hEq]
    rw [hdrv, hvar, hrc]
    rw [hrc] at hr
    exact ⟨hr, popVariance_nonneg _, rfl, rfl⟩
  · have hs := pairwise_take_sSort (fun e : ConsistencyEntry => e.variance) 6
      (((keysInOrder (fun x => x.Driver) (etPool l)).map (fun d =>
        (⟨d, headCarNo (groupOf (fun x => x.Driver) (etPool l) d),
          popVariance (validETsFor l d),
          (validETsFor l d).length⟩ : ConsistencyEntry))).filter
        (fun e => decide (3 ≤ e.races)))
    exact hs.imp (fun h => Real.sqrt_le_sqrt (Rat.cast_le.mpr h))

/-! ## Claim C7: improvement trend -/

/-- C7: a driver is in the improvement-eligible pool exactly when they have
at least 4 qualifying samples (so a driver with at most 3 is excluded
entirely); every ranking entry comes from an eligible driver; and the
per-driver computation sorts the runs chronologically (a permutation of the
qualifying samples, pairwise ordered by date) and reports the delta late
average minus early average together with the percentage change relative to
the early average — for the ET board and the MPH board alike. -/
theorem improvement_spec :
    ∀ (dt : String → ℤ) (l : List RaceRecord),
      (∀ g ∈ improvementEligible l, 4 ≤ g.runs.length ∧
        g.runs = runsForDriver (fun r => r.eighthET) l g.driver) ∧
      (∀ d : String, 4 ≤ (runsForDriver (fun r => r.eighthET) l d).length →
        ∃ g ∈ improvementEligible l, g.driver = d) ∧
      (∀ d : String, (runsForDriver (fun r => r.eighthET) l d).length ≤ 3 →
        ∀ g ∈ improvementEligible l, g.driver ≠ d) ∧
      (∀ e ∈ improvementData dt l, ∃ g ∈ improvementEligible l, e = mkImproveET dt g) ∧
      (∀ g : Progress, (sortRunsByDate dt g.runs).Perm g.runs ∧
        List.Pairwise (fun a b => dt a.date ≤ dt b.date) (sortRunsByDate dt g.runs) ∧
        (mkImproveET dt g).value = lateAvgOf dt g - earlyAvgOf dt g ∧
        (mkImproveET dt g).improvementPct =
          (earlyAvgOf dt g - lateAvgOf dt g) / earlyAvgOf dt g * 100) ∧
      (∀ g ∈ mphImprovementEligible l, 4 ≤ g.runs.length ∧
        g.runs = runsForDriver (fun r => r.eighthMPH) l g.driver) ∧
      (∀ d : String, 4 ≤ (runsForDriver (fun r => r.eighthMPH) l d).length →
        ∃ g ∈ mphImprovementEligible l, g.driver = d) ∧
      (∀ d : String, (runsForDriver (fun r => r.eighthMPH) l d).length ≤ 3 →
        ∀ g ∈ mphImprovementEligible l, g.driver ≠ d) ∧
      (∀ e ∈ mphImprovementData dt l, ∃ g ∈ mphImprovementEligible l,
        e = mkImproveMPH dt g) ∧
      (∀ g : Progress, (mkImproveMPH dt g).value = lateAvgOf dt g - earlyAvgOf dt g ∧
        (mkImproveMPH dt g).improvementPct =
          (lateAvgOf dt g - earlyAvgOf dt g) / earlyAvgOf dt g * 100) := by
  intro dt l
  have keyMem : ∀ (f : RaceRecord → ℚ) (d : String),
      4 ≤ (runsForDriver f l d).length →
        d ∈ keysInOrder (fun x => x.Driver) (l.filter (fun r => decide (0 < f r))) := by
    intro f d h4
    have hnn : runsForDriver f l d ≠ [] := by
      intro hcon
      rw [hcon] at h4
      exact absurd h4 (by decide)
    have : groupOf (fun x => x.Driver) (l.filter (fun r => decide (0 < f r))) d ≠ [] := by
      intro hcon
      apply hnn
      rw [runsForDriver, hcon]
      rfl
    rcases List.exists_mem_of_ne_nil _ this with ⟨a, ha⟩
    rcases (mem_groupOf _ _ _ _).mp ha with ⟨hal, had⟩
    exact (mem_keysInOrder _ _ _).mpr ⟨a, hal, had⟩
  have eligProp : ∀ (f : RaceRecord → ℚ) (g : Progress),
      g ∈ (progressOf f l).filter (fun g => decide (4 ≤ g.runs.length)) →
        4 ≤ g.runs.length ∧ g.runs = runsForDriver f l g.driver := by
    intro f g hg
    rcases List.mem_filter.mp hg with ⟨hmem, hlen⟩
    rw [decide_eq_true_eq] at hlen
    rcases List.mem_map.mp hmem with ⟨k, -, hEq⟩
    have hdrv : g.driver = k := by rw [← hEq]
    have hruns : g.runs = runsForDriver f l k := by rw [← hEq]
    exact ⟨hlen, by rw [hruns, hdrv]⟩
  have eligIn : ∀ (f : RaceRecord → ℚ) (d : String),
      4 ≤ (runsForDriver f l d).length →
        ∃ g ∈ (progressOf f l).filter (fun g => decide (4 ≤ g.runs.length)), g.driver = d := by
    intro f d h4
    refine ⟨⟨d, headCarNo (groupOf (fun x => x.Driver)
      (l.filter (fun r => decide (0 < f r))) d), runsForDriver f l d⟩, ?_, rfl⟩
    refine List.mem_filter.mpr ⟨?_, by rw [decide_eq_true_eq]; exact h4⟩
    exact List.mem_map.mpr ⟨d, keyMem f d h4, rfl⟩
  have eligOut : ∀ (f : RaceRecord → ℚ) (d : String),
      (runsForDriver f l d).length ≤ 3 →
        ∀ g ∈ (progressOf f l).filter (fun g => decide (4 ≤ g.runs.length)),
          g.driver ≠ d := by
    intro f d h3 g hg hd
    rcases eligProp f g hg with ⟨h4, hruns⟩
    rw [hruns, hd] at h4
    omega
  refine ⟨eligProp _, eligIn _, eligOut _, ?_, ?_, eligProp _, eligIn _, eligOut _, ?_, ?_⟩
  · intro e he
    have he2 := List.Sublist.mem he (List.take_sublist 10 _)
    rw [mem_sSort] at he2
    rcases List.mem_map.mp he2 with ⟨g, hg, hEq⟩
    exact ⟨g, hg, hEq.symm⟩
  · intro g
    refine ⟨sSort_perm _ _, ?_, rfl, rfl⟩
    have hs := sorted_sSort (fun a b => decide (dt a.date ≤ dt b.date))
      (decideLeTrans (fun r : Run => dt r.date)) (decideLeTotal (fun r : Run => dt r.date))
      g.runs
    exact hs.imp (fun h => by rw [decide_eq_true_eq] at h; exact h)
  · intro e he
    have he2 := List.Sublist.mem he (List.take_sublist 10 _)
    rw [mem_sSort] at he2
    rcases List.mem_map.mp he2 with ⟨g, hg, hEq⟩
    exact ⟨g, hg, hEq.symm⟩
  · intro g
    exact ⟨rfl, rfl⟩

/-- C7 witness: in `dataC7` driver Al has 4 qualifying ET samples and is in
the eligible pool, while driver Bo has none and is excluded, via the claim
theorem. -/
theorem improvement_spec_witness :
    (4 ≤ (runsForDriver (fun r => r.eighthET) dataC7 ("Al")).length ∧
      ∃ g ∈ improvementEligible dataC7, g.driver = ("Al")) ∧
    ((runsForDriver (fun r => r.eighthET) dataC7 ("Bo")).length ≤ 3 ∧
      ∀ g ∈ improvementEligible dataC7, g.driver ≠ ("Bo")) :=
  ⟨⟨by decide, (improvement_spec dtC7 dataC7).2.1 ("Al") (by decide)⟩,
    ⟨by decide, (improvement_spec dtC7 dataC7).2.2.1 ("Bo") (by decide)⟩⟩

/-! ## Claim C8: sample counts alongside aggregates -/

/-- Elements of a valid-value list are strictly positive. -/
theorem validValues_pos (f : RaceRecord → ℚ) (dr : List RaceRecord) :
    ∀ x ∈ validValues f dr, 0 < x := by
  intro x hx
  rcases List.mem_map.mp hx with ⟨r, hr, rfl⟩
  rcases List.mem_filter.mp hr with ⟨-, hp⟩
  rw [decide_eq_true_eq] at hp
  exact hp

/-- The displayed average of a list of positive values is zero exactly when
there are no values. -/
theorem calcAverage_eq_zero_iff (vv : List ℚ) (hpos : ∀ x ∈ vv, 0 < x) :
    calcAverage vv = 0 ↔ vv = [] := by
  constructor
  · intro h
    by_contra hne
    have hlen : 0 < vv.length := List.length_pos.mpr hne
    have hsum : 0 < vv.sum := List.sum_pos vv hpos hne
    have : 0 < calcAverage vv := by
      unfold calcAverage
      rw [if_pos hlen]
      exact div_pos hsum (by exact_mod_cast hlen)
    rw [h] at this
    exact absurd this (by norm_num)
  · intro h
    rw [h]
    rfl

/-- C8 (amended): the per-driver rollup carries only the total race count —
a positive number whenever the rollup exists — and no per-metric sample
count; the zero-sample case of the average reaction is signalled only by the
sentinel value 0 itself, which is unambiguous because the average of any
nonempty valid sample set is strictly positive.  The per-race-number
aggregates do carry an explicit count: the number of ET-valid records of the
bucket. -/
theorem rollup_sample_marker :
    (∀ (sel : String) (l : List RaceRecord), ¬ sel = ("") →
      l.filter (fun r => decide (r.Driver = sel)) ≠ [] →
      ((driverStatsFor sel l).map (fun s => s.races) =
          some ((l.filter (fun r => decide (r.Driver = sel))).length) ∧
        0 < (l.filter (fun r => decide (r.Driver = sel))).length ∧
        ((driverStatsFor sel l).map (fun s => s.avgReaction) = some 0 ↔
          validValues (fun r => r.Reaction)
            (l.filter (fun r => decide (r.Driver = sel))) = []))) ∧
    (∀ (l : List RaceRecord), ∀ t ∈ timePerformanceData l, 0 < t.count ∧
      t.count = (validValues (fun r => r.eighthET)
        (groupOf raceNumKey l t.raceNumber)).length) := by
  constructor
  · intro sel l hsel hne
    rw [driverStatsFor_eq sel l hsel hne]
    refine ⟨rfl, List.length_pos.mpr hne, ?_⟩
    have := calcAverage_eq_zero_iff
      (validValues (fun r => r.Reaction) (l.filter (fun r => decide (r.Driver = sel))))
      (validValues_pos _ _)
    simpa [mkDriverStats] using this
  · intro l t ht
    rw [timePerformanceData, mem_sSort] at ht
    rcases List.mem_map.mp ht with ⟨p, hp, hEq⟩
    rcases List.mem_filter.mp hp with ⟨hmem, hc⟩
    rw [decide_eq_true_eq] at hc
    rcases List.mem_map.mp hmem with ⟨k, -, hpEq⟩
    have hcount : t.count = p.count := by rw [← hEq]
    have hrn : t.raceNumber = p.raceNumber := by rw [← hEq]
    have hpc : p.count = (validValues (fun r => r.eighthET)
        (groupOf raceNumKey l k)).length := by rw [← hpEq]
    have hpk : p.raceNumber = k := by rw [← hpEq]
    rw [hcount, hrn, hpk, hpc]
    rw [hpc] at hc
    exact ⟨hc, rfl⟩

/-- C8 witness: for driver Al in `dataC8` the rollup exists, reports the
total race count, and its zero average reaction coincides with the empty
valid-reaction list, via the amended theorem. -/
theorem rollup_sample_marker_witness :
    ((driverStatsFor ("Al") dataC8).map (fun s => s.races) =
        some ((dataC8.filter (fun r => decide (r.Driver = ("Al")))).length)) ∧
      ((driverStatsFor ("Al") dataC8).map (fun s => s.avgReaction) = some 0 ↔
        validValues (fun r => r.Reaction)
          (dataC8.filter (fun r => decide (r.Driver = ("Al")))) = []) := by
  have h := rollup_sample_marker.1 ("Al") dataC8 (by decide) (by decide)
  exact ⟨h.1, h.2.2⟩

/-- C8 counterexample: driver Al of `dataC8` has two races and no valid
reaction sample; the rollup reports average reaction 0 but its only count
field is the total race count 2 — there is no explicit zero-sample marker
alongside the average. -/
theorem rollup_sample_marker_counterexample :
    (driverStatsFor ("Al") dataC8).map (fun s => s.avgReaction) = some 0 ∧
      (driverStatsFor ("Al") dataC8).map (fun s => s.races) = some 2 ∧
      validValues (fun r => r.Reaction)
        (dataC8.filter (fun r => decide (r.Driver = ("Al")))) = [] ∧
      (2 : ℕ) ≠ 0 := by
  have hds := driverStatsFor_eq ("Al") dataC8 (by decide) (by decide)
  refine ⟨?_, ?_, by decide, by decide⟩
  · rw [hds]
    simp [mkDriverStats, calcAverage, validValues, dataC8, mkR]
  · rw [hds]
    simp [mkDriverStats, dataC8, mkR]

/-! ## Claim C9: empty rollup for a driver with no matching records -/

/-- C9: the rollup is the explicit no-data value `none` exactly when the
selection is empty, the dataset is empty, or no record matches the selected
driver; in every other case it is a defined record (never NaN/undefined
fields, since every field of the embedding is a total rational-valued
computation). -/
theorem driver_rollup_no_data :
    ∀ (sel : String) (l : List RaceRecord),
      driverStatsFor sel l = none ↔
        (sel = ("") ∨ l = [] ∨ l.filter (fun r => decide (r.Driver = sel)) = []) := by
  intro sel l
  constructor
  · intro h
    by_cases hsel : sel = ("")
    · exact Or.inl hsel
    by_cases hl : l = []
    · exact Or.inr (Or.inl hl)
    by_cases hf : l.filter (fun r => decide (r.Driver = sel)) = []
    · exact Or.inr (Or.inr hf)
    · rw [driverStatsFor_eq sel l hsel hf] at h
      exact absurd h (by simp)
  · rintro (h | h | h)
    · unfold driverStatsFor
      rw [if_pos (Or.inl h)]
    · unfold driverStatsFor
      rw [if_pos (Or.inr h)]
    · by_cases hsel : sel = ("")
      · unfold driverStatsFor
        rw [if_pos (Or.inl hsel)]
      · by_cases hl : l = []
        · unfold driverStatsFor
          rw [if_pos (Or.inr hl)]
        · unfold driverStatsFor
          rw [if_neg (by simp [hsel, hl]), h]

/-! ## Claim C10: the 0.001-second cutoff of the best-reaction leaderboard -/

/-- C10: every entry of the best-reaction leaderboard has a reaction
strictly above 0.001 seconds, and a record with reaction in the interval
(0, 0.001] is excluded from the leaderboard pool while still counting as a
valid sample of the per-driver reaction averages. -/
theorem reaction_leaderboard_threshold :
    ∀ l : List RaceRecord,
      (∀ e ∈ reactionLeaders l, (1 : ℚ)/1000 < e.value) ∧
      (∀ r ∈ l, 0 < r.Reaction → r.Reaction ≤ (1 : ℚ)/1000 →
        r ∉ reactionPool l ∧
        r.Reaction ∈ validValues (fun x => x.Reaction)
          (groupOf (fun x => x.Driver) l r.Driver)) := by
  intro l
  constructor
  · intro e he
    rcases List.mem_map.mp he with ⟨r, hr, hEq⟩
    have hr2 := List.Sublist.mem hr (List.take_sublist 10 _)
    rw [mem_sSort] at hr2
    rcases List.mem_filter.mp hr2 with ⟨-, hc⟩
    rw [decide_eq_true_eq] at hc
    have : e.value = r.Reaction := by
      rw [← hEq]
      rfl
    rw [this]
    exact hc
  · intro r hrl hpos hle
    constructor
    · intro hmem
      rcases List.mem_filter.mp hmem with ⟨-, hc⟩
      rw [decide_eq_true_eq] at hc
      exact absurd hc (not_lt.mpr hle)
    · refine List.mem_map.mpr ⟨r, ?_, rfl⟩
      refine List.mem_filter.mpr ⟨?_, by rw [decide_eq_true_eq]; exact hpos⟩
      exact (mem_groupOf _ l _ r).mpr ⟨hrl, rfl⟩

/-- C10 witness: the record with reaction exactly 0.001 is excluded from the
leaderboard pool of `dataC10` yet counted among the valid reaction samples
of its driver, via the claim theorem. -/
theorem reaction_leaderboard_threshold_witness :
    (recC10 ∈ dataC10 ∧ 0 < recC10.Reaction ∧ recC10.Reaction ≤ (1 : ℚ)/1000) ∧
      (recC10 ∉ reactionPool dataC10 ∧
        recC10.Reaction ∈ validValues (fun x => x.Reaction)
          (groupOf (fun x => x.Driver) dataC10 recC10.Driver)) := by
  have h1 : recC10 ∈ dataC10 := List.mem_cons_self _ _
  have h2 : 0 < recC10.Reaction := one_div_pos.mpr (by decide)
  have h3 : recC10.Reaction ≤ (1 : ℚ)/1000 := le_refl _
  exact ⟨⟨h1, h2, h3⟩, (reaction_leaderboard_threshold dataC10).2 recC10 h1 h2 h3⟩

/-- C5 witness: the length bounds at the concrete dataset `dataC5`, via the
amended theorem. -/
theorem leaderboards_sorted_stable_witness :
    (etLeaders dataC5).length ≤ 10 ∧ (winsLeaderboard dataC5).length ≤ 10 := by
  obtain ⟨ha, hb, hc, hd, he, hf, hg, hh, hi, hj, hk⟩ := leaderboards_sorted_stable dataC5
  exact ⟨ha.1, he.1⟩

/-- C6 witness: the board bound at `dataC6` and the divide-by-N variance
formula at the concrete samples 7, 8, 9, via the claim theorem. -/
theorem consistency_spec_witness :
    (consistencyLeaderboard dataC6).length ≤ 6 ∧
      popVariance ((7 : ℚ) :: [8, 9]) =
        (((7 : ℚ) :: [8, 9]).map (fun v => v^2)).sum / (((7 : ℚ) :: [8, 9]).length : ℚ) -
          (((7 : ℚ) :: [8, 9]).sum / (((7 : ℚ) :: [8, 9]).length : ℚ))^2 := by
  have h := consistency_spec dataC6
  exact ⟨h.1, h.2.2.2 7 [8, 9]⟩

/-- C9 witness: a selection matching no record yields the explicit no-data
rollup, via the claim theorem. -/
theorem driver_rollup_no_data_witness :
    driverStatsFor ("Zz") dataC6 = none :=
  (driver_rollup_no_data ("Zz") dataC6).mpr (Or.inr (Or.inr (by decide)))
